import Mathlib

/-!
Shallow embedding of the stream lifecycle and access-control engine of the
`cc.core.server` control plane, together with proofs about its behaviour.

The Go source is embedded as follows:
* persisted bolt buckets (`storage.Bucket`) become association lists with
  `Load`/`Store`/`Delete` operations mirroring bolt `Put`/`Get`/`Delete`;
* the in-memory `sync.Map` registry of running streams becomes an
  association list in the server state;
* machine strings (`string`) become `String`, `time.Time` instants become
  `Nat` ticks, and RSA keypairs become opaque `Nat` identifiers (the private
  and the public half of a per-stream keypair share the identifier, which is
  how signing/verification matching is modelled);
* fallible Go functions returning `(T, error)` become `Except String T` or
  an explicit outcome type;
* a blocking channel receive is modelled by an oracle argument carrying the
  value sent on the channel, `none` meaning nobody ever sends, in which case
  the receiving call never returns (outcome `blocked`).
-/

namespace CcCore

/-! ## Association-list stores (embedding of `storage.Bucket` and `sync.Map`) -/

/-- Lookup in an association list; embeds `Bucket.Load` / `sync.Map.Load`
(`nil`/`!ok` becomes `none`). -/
def alLoad {α : Type} (l : List (String × α)) (k : String) : Option α :=
  match l.find? (fun kv => kv.1 = k) with
  | some kv => some kv.2
  | none => none

/-- Idempotent keyed overwrite; embeds `Bucket.Store` (bolt `Put`) and
`sync.Map.Store`. -/
def alStore {α : Type} (l : List (String × α)) (k : String) (v : α) :
    List (String × α) :=
  if (alLoad l k).isSome then
    l.map (fun kv => if kv.1 = k then (k, v) else kv)
  else
    l ++ [(k, v)]

/-- Keyed delete; embeds `Bucket.Delete` and `sync.Map.Delete`. -/
def alDelete {α : Type} (l : List (String × α)) (k : String) :
    List (String × α) :=
  l.filter (fun kv => ¬ kv.1 = k)

/-! ## Data model (from `server/stream.go` and `service`/`api` definitions) -/

/-- `streamInfo` from `server/stream.go`: the persisted stream row, also
used as the list item of `StreamList` (the Go code copies the fields 1:1
into `service.StreamInfo`). `startedAt` is a tick; `finishedAt` is absent
while the stream runs. -/
structure StreamRec where
  uuid : String
  name : String
  description : String
  ip : String
  port : Nat
  launchMode : String
  startedAt : Nat
  finishedAt : Option Nat
  subject : String
  status : String
  joinCode : String
  joinPolicy : String
  hostUUID : String
  hostUsername : String
  hostAvatarID : String
  hostIP : String
  deriving Repr, DecidableEq

/-- `participantInfo` from `server/participant.go` (without the rendezvous
channel, which is modelled by the oracle argument of `joinParticipant`). -/
structure ParticipantInfo where
  uuid : String
  name : String
  avatarID : String
  ip : String
  status : String
  deriving Repr, DecidableEq

/-- The stream-token claims of `generateStreamAccessToken`:
`streamUUID`, `UUID` and `host`, signed with the per-stream private key
(the `key` identifier). The `host` claim is optional because the
middleware tolerates tokens that do not carry it. `rsaAlg` records that
the token's header names an RSA signing method, which `jwt.Parse`'s key
function checks. -/
structure StreamToken where
  streamUUID : String
  uuid : String
  host : Option Bool
  key : Nat
  rsaAlg : Bool
  deriving Repr, DecidableEq

/-- `generateStreamAccessToken` from `server/stream.go`: mints an RS256
token with the three claims, signed by the stream private key. -/
def generateStreamAccessToken (streamUUID participantUUID : String)
    (isHost : Bool) (privateKey : Nat) : StreamToken :=
  { streamUUID := streamUUID, uuid := participantUUID, host := some isHost,
    key := privateKey, rsaAlg := true }

/-- `streamModule` from `server/stream.go`: the live registry entry owning
the RSA keypair and the host-resolve pending-join map. -/
structure StreamModule where
  keyId : Nat
  pending : List (String × ParticipantInfo)
  deriving Repr, DecidableEq

/-- The shared server state: the `streams` registry (`sync.Map`) and the
`stream`/`participant` storage buckets. -/
structure ServerState where
  streams : List (String × StreamModule)
  streamRows : List (String × StreamRec)
  participantRows : List (String × List ParticipantInfo)
  deriving Repr, DecidableEq

/-! ## Admission engine (`Server.JoinParticipant` in `server/participant.go`) -/

/-- Outcome of a `JoinParticipant` call. `ok` carries the decision and the
optional access token of the HTTP response; `fail` is a returned `error`;
`blocked` means the call never returns (it is stuck on a channel receive). -/
inductive JoinOutcome where
  | ok (allowed : Bool) (accessToken : Option StreamToken)
  | fail (msg : String)
  | blocked
  deriving Repr, DecidableEq

/-- The deferred `pendingParticipants.Delete(pInfo.UUID)` that runs when
`JoinParticipant` returns. -/
def removePending (st : ServerState) (streamUUID pid : String) : ServerState :=
  match alLoad st.streams streamUUID with
  | some m =>
      let m1 := { m with pending := alDelete m.pending pid }
      { st with streams := alStore st.streams streamUUID m1 }
  | none => st

/-- The tail of `JoinParticipant` after `JoinAllowed` is decided `true`:
mint the participant token (`host=false`), mark the participant active,
append it to the persisted participant list, and return; the deferred
pending-waiter delete runs on return. -/
def joinAllowedPath (st : ServerState) (streamUUID : String) (keyId : Nat)
    (pInfo : ParticipantInfo) : JoinOutcome × ServerState :=
  let token := generateStreamAccessToken streamUUID pInfo.uuid false keyId
  let pActive := { pInfo with status := "active" }
  let old := (alLoad st.participantRows streamUUID).getD []
  let rows1 := alStore st.participantRows streamUUID (old ++ [pActive])
  let st1 := { st with participantRows := rows1 }
  (.ok true (some token), removePending st1 streamUUID pInfo.uuid)

/-- `Server.JoinParticipant` from `server/participant.go`.

`ctxCancelled` is the state of the caller's context; `newUUID` stands for
the freshly generated `uuid.New()`; `hostDecision` is the oracle for the
rendezvous receive `<-pInfo.pendingChan` (`some b` if the host eventually
sends `b`, `none` if nobody ever sends).  The source receives from the
channel without any `select` on `ctx.Done()`, so the translation of the
`host_resolve` arm inspects only `hostDecision` and ignores `ctxCancelled`;
when the oracle is `none` the call blocks forever and its deferred
pending-waiter delete never runs. -/
def joinParticipant (st : ServerState) (streamUUID joinCode : String)
    (p : ParticipantInfo) (ctxCancelled : Bool) (newUUID : String)
    (hostDecision : Option Bool) : JoinOutcome × ServerState :=
  match alLoad st.streamRows streamUUID, alLoad st.streams streamUUID with
  | some row, some m =>
      let pInfo : ParticipantInfo :=
        { uuid := newUUID, name := p.name, avatarID := p.avatarID,
          ip := p.ip, status := "pending" }
      let mP := { m with pending := alStore m.pending newUUID pInfo }
      let stP := { st with streams := alStore st.streams streamUUID mP }
      if row.joinPolicy = "auto" then
        joinAllowedPath stP streamUUID m.keyId pInfo
      else if row.joinPolicy = "by_code" then
        if ¬ row.joinCode = joinCode then
          (.fail "invalid join code", removePending stP streamUUID newUUID)
        else
          joinAllowedPath stP streamUUID m.keyId pInfo
      else if row.joinPolicy = "host_resolve" then
        match hostDecision with
        | none => (.blocked, stP)
        | some false =>
            (.ok false none, removePending stP streamUUID newUUID)
        | some true =>
            joinAllowedPath stP streamUUID m.keyId pInfo
      else
        (.fail "unknown stream join policy",
          removePending stP streamUUID newUUID)
  | _, _ =>
      (.fail ("could not find running stream by UUID " ++ streamUUID), st)

/-! ## Lifecycle (`Server.killStream`, `Server.FinishStream`,
`Server.StreamKey` in `server/stream.go`) -/

/-- `Server.killStream`: if a live registry entry exists, close its rpc
link, stop its worker (both side effects on external resources) and delete
the entry; then, if a persisted row exists, mark it `finished` with
`finished-at = now`.  `now` is the tick of `time.Now().UTC()`. -/
def killStreamState (st : ServerState) (streamUUID : String) (now : Nat) :
    ServerState :=
  let st1 :=
    if (alLoad st.streams streamUUID).isSome then
      { st with streams := alDelete st.streams streamUUID }
    else st
  match alLoad st1.streamRows streamUUID with
  | none => st1
  | some row =>
      let row1 := { row with status := "finished", finishedAt := some now }
      { st1 with streamRows := alStore st1.streamRows streamUUID row1 }

/-- `Server.FinishStream`: errors unless a live registry entry exists,
otherwise runs `killStream` and succeeds. -/
def finishStream (st : ServerState) (streamUUID : String) (now : Nat) :
    Except String Unit × ServerState :=
  if (alLoad st.streams streamUUID).isSome then
    (.ok (), killStreamState st streamUUID now)
  else
    (.error ("could not find running stream by UUID " ++ streamUUID), st)

/-- `Server.StreamKey`: the stream's public key, or an error when no live
registry entry exists for the UUID. -/
def streamKey (st : ServerState) (streamUUID : String) : Except String Nat :=
  match alLoad st.streams streamUUID with
  | some m => .ok m.keyId
  | none => .error ("could not find running stream by UUID " ++ streamUUID)

/-! ## Interleaving model for `NewStream` / `killStream` (claim C3)

`NewStream` and `killStream` touch the shared state (registry + stream
bucket) in a fixed sequence of atomic accesses; any point of an
interleaving is reached by executing a prefix of an operation's access
sequence. The atomic accesses, in source order: `NewStream` persists the
row with `status=running` (`streamStorage.Store`, line "store stream
data") and then inserts the registry entry (`s.streams.Store`);
`killStream` deletes the registry entry (`s.streams.Delete`, a no-op when
absent) and then rewrites the loaded row as finished (a no-op when no row
exists). -/

/-- One atomic shared-state access. -/
inductive Act where
  | storeRow (s : String) (row : StreamRec)
  | regInsert (s : String) (m : StreamModule)
  | regDelete (s : String)
  | storeFinished (s : String) (now : Nat)
  deriving Repr, DecidableEq

/-- Effect of one atomic access on the shared state. -/
def applyAct (st : ServerState) : Act → ServerState
  | .storeRow s row =>
      { st with streamRows := alStore st.streamRows s row }
  | .regInsert s m =>
      { st with streams := alStore st.streams s m }
  | .regDelete s =>
      { st with streams := alDelete st.streams s }
  | .storeFinished s now =>
      match alLoad st.streamRows s with
      | none => st
      | some row =>
          let row1 := { row with status := "finished", finishedAt := some now }
          { st with streamRows := alStore st.streamRows s row1 }

/-- Run a sequence of atomic accesses. -/
def runActs (st : ServerState) : List Act → ServerState
  | [] => st
  | a :: rest => runActs (applyAct st a) rest

/-- The shared-state access sequence of a successful `NewStream` for a
fresh id `s` (the row it persists has `status=running` and no
`finished-at`). -/
def newStreamScript (s : String) (row : StreamRec) (m : StreamModule) :
    List Act :=
  [.storeRow s row, .regInsert s m]

/-- The shared-state access sequence of `killStream` (entered from
`FinishStream` or from the interrupt watcher). -/
def killScript (s : String) (now : Nat) : List Act :=
  [.regDelete s, .storeFinished s now]

/-- A completed lifecycle operation. -/
inductive LifeOp where
  | create (s : String) (row : StreamRec) (m : StreamModule)
  | kill (s : String) (now : Nat)
  deriving Repr, DecidableEq

/-- The access sequence of a completed operation. -/
def opScript : LifeOp → List Act
  | .create s row m => newStreamScript s row m
  | .kill s now => killScript s now

/-- Run a sequence of completed operations. -/
def runOps (st : ServerState) : List LifeOp → ServerState
  | [] => st
  | op :: rest => runOps (runActs st (opScript op)) rest

/-- `NewStream` persists a freshly built row whose `status` is
`running` and whose `finishedAt` is absent. -/
def ValidOp : LifeOp → Prop
  | .create _ row _ => row.status = "running" ∧ row.finishedAt = none
  | .kill _ _ => True

/-- The P1 three-state property for one stream id: (a) a live registry
entry exists and the row is `running` with no `finished-at`; or (b) no
entry exists and the row is `finished` with `finished-at` set; or (c)
neither exists.  The four-way match makes the three admissible states
mutually exclusive: a registry entry without a row is outright excluded,
and each remaining branch pins down the row fields. -/
def threeState (st : ServerState) (s : String) : Prop :=
  match alLoad st.streams s, alLoad st.streamRows s with
  | some _, some row => row.status = "running" ∧ row.finishedAt = none
  | none, some row => row.status = "finished" ∧ row.finishedAt ≠ none
  | none, none => True
  | some _, none => False

/-- The empty server state. -/
def initState : ServerState :=
  { streams := [], streamRows := [], participantRows := [] }

/-! ## Auth gate (`middleware.StreamAuthMiddleware` in
`handler/middleware/auth.go`) -/

/-- The participant context attached to an admitted request. -/
structure ParticipantCtxData where
  uuid : String
  streamUUID : String
  isHost : Bool
  deriving Repr, DecidableEq

/-- Outcome of the stream auth middleware: reject with 401, reject with
403, or admit with the participant context. -/
inductive AuthOutcome where
  | unauthorized
  | forbidden
  | ok (p : ParticipantCtxData)
  deriving Repr, DecidableEq

/-- `jwt.Parse` with the middleware's key function: the token must name an
RSA signing method and its signature must verify under the supplied public
key; on success the claims are exposed. -/
def parseStreamToken (publicKey : Nat) (tok : StreamToken) :
    Option StreamToken :=
  if tok.rsaAlg ∧ tok.key = publicKey then some tok else none

/-- `middleware.StreamAuthMiddleware`: look up the stream public key for
the path's stream id (reject 401 on failure), parse+verify the bearer
token (reject 401 on failure), then reject 403 when the token's
`streamUUID` differs from the path stream id, reject 401 when the
middleware is host-specific and the token does not carry `host=true`
(a missing `host` claim leaves `IsHost` false), and otherwise admit. -/
def streamAuthMiddleware (keyRes : Except String Nat) (tok : StreamToken)
    (pathUUID : String) (hostSpecific : Bool) : AuthOutcome :=
  match keyRes with
  | .error _ => .unauthorized
  | .ok publicKey =>
      match parseStreamToken publicKey tok with
      | none => .unauthorized
      | some claims =>
          let participant : ParticipantCtxData :=
            { uuid := claims.uuid, streamUUID := claims.streamUUID,
              isHost := claims.host.getD false }
          if ¬ pathUUID = participant.streamUUID then .forbidden
          else if hostSpecific ∧ ¬ participant.isHost then .unauthorized
          else .ok participant

/-! ## Stream listing (`Server.StreamList`, `isStreamFitsFilter`,
`filterStreams` in `server/stream.go`) -/

/-- `service.StreamFilter`. -/
structure StreamFilter where
  searchPhrase : String
  launchModes : List String
  statuses : List String
  sortBy : String
  sortOrder : String
  pageSize : Nat
  page : Nat
  deriving Repr, DecidableEq

/-- `strings.Contains`. -/
def strContains (s sub : String) : Bool :=
  decide (sub.toList <:+: s.toList)

/-- `isStreamFitsFilter`: substring match of the search phrase on name or
description, then set membership on launch mode and on status (an empty
filter list admits every value). -/
def isStreamFitsFilter (st : StreamRec) (f : StreamFilter) : Bool :=
  (strContains st.name f.searchPhrase || strContains st.description f.searchPhrase)
    && (f.launchModes.isEmpty || f.launchModes.contains st.launchMode)
    && (f.statuses.isEmpty || f.statuses.contains st.status)

/-- The comparator `filterStreams` selects: one of the five
`filterStreamsBy*` closures, or none when `sortBy` matches no known field
(in which case the list is left unsorted).  Sort-field and sort-order
values are the `service` string constants. -/
def filterStreamsLess (sortBy sortOrder : String) :
    Option (StreamRec → StreamRec → Bool) :=
  if sortBy = "uuid" then
    some (fun a b => if sortOrder = "asc" then decide (a.uuid < b.uuid)
      else decide (b.uuid < a.uuid))
  else if sortBy = "name" then
    some (fun a b => if sortOrder = "asc" then decide (a.name < b.name)
      else decide (b.name < a.name))
  else if sortBy = "mode" then
    some (fun a b => if sortOrder = "asc" then decide (a.launchMode < b.launchMode)
      else decide (b.launchMode < a.launchMode))
  else if sortBy = "started" then
    some (fun a b => if sortOrder = "asc" then decide (a.startedAt < b.startedAt)
      else decide (b.startedAt < a.startedAt))
  else if sortBy = "status" then
    some (fun a b => if sortOrder = "asc" then decide (a.status < b.status)
      else decide (b.status < a.status))
  else
    none

/-- `filterStreams` (the in-place `sort.Slice` call): produces a
permutation of the list that is pairwise ordered by the selected
comparator.  `sort.Slice` is an unspecified comparison sort; it is
modelled by `List.mergeSort` on the non-strict companion relation of the
comparator, which realises exactly the permutation-plus-pairwise-order
contract. -/
def filterStreamsSort (streams : List StreamRec) (sortBy sortOrder : String) :
    List StreamRec :=
  match filterStreamsLess sortBy sortOrder with
  | some less => streams.mergeSort (fun a b => ! less b a)
  | none => streams

/-- `service.StreamList`: one result page. -/
structure StreamListRes where
  streams : List StreamRec
  page : Nat
  pageSize : Nat
  count : Nat
  hasNext : Bool
  total : Nat
  deriving Repr, DecidableEq

/-- `Server.StreamList`: scan all rows, keep those fitting the filter,
sort, then slice-paginate with `startIndex = (page-1)*pageSize` and
`endIndex = startIndex + pageSize` exactly as the two `if` statements in
the source do. -/
def streamList (rows : List StreamRec) (f : StreamFilter) : StreamListRes :=
  let streams := rows.filter (fun st => isStreamFitsFilter st f)
  let sorted := filterStreamsSort streams f.sortBy f.sortOrder
  let startIndex := (f.page - 1) * f.pageSize
  let endIndex := startIndex + f.pageSize
  let fs1 := if startIndex < sorted.length then sorted.drop startIndex else []
  let fs2 := if endIndex < sorted.length then fs1.take (endIndex - startIndex) else fs1
  { streams := fs2, page := f.page, pageSize := f.pageSize,
    count := fs2.length, hasNext := decide (sorted.length > f.page * f.pageSize),
    total := sorted.length }

/-! ## Worker launchers (`stream/standalone.go`, `stream/docker_container.go`) -/

/-- `defaultStandaloneAppIP` from `stream/standalone.go`. -/
def defaultStandaloneAppIP : String := "127.0.0.1"

/-- `defaultDockerContainerHostIP` from `stream/docker_container.go`. -/
def defaultDockerContainerHostIP : String := "0.0.0.0"

/-- The interface-defaulting step at the top of `StandaloneStream.Start`. -/
def standaloneResolveIP (preferedIP : String) : String :=
  if preferedIP = "" then defaultStandaloneAppIP else preferedIP

/-- The interface-defaulting step at the top of
`DockerContainerStream.Start`. -/
def dockerResolveIP (preferedIP : String) : String :=
  if preferedIP = "" then defaultDockerContainerHostIP else preferedIP

/-- An IPv4 loopback address (the 127.0.0.0/8 block). -/
def isLoopbackIPv4 (ip : String) : Bool :=
  "127.".toList.isPrefixOf ip.toList

/-- How the worker process can come to exit, seen from the launcher. -/
inductive ExitCause where
  | cleanExit
  | crash (msg : String)
  | killedByStop
  deriving Repr, DecidableEq

/-- The error `exec.Cmd.Wait` reports for each exit cause.  Modelled from
the `os/exec` contract: `Wait` returns `nil` only for a zero exit status;
a crash carries its exit error, and a process killed by
`StandaloneStream.Stop` (`Process.Kill`, i.e. SIGKILL) makes `Wait`
return a non-nil `*ExitError` for the kill signal. -/
def waitResult : ExitCause → Option String
  | .cleanExit => none
  | .crash msg => some msg
  | .killedByStop => some "signal: killed"

/-- The forwarding goroutine of `StandaloneStream.Start`: after `Wait`
returns, it sends on the interrupt channel exactly when the reported
error is non-nil. -/
def interruptDelivered (c : ExitCause) : Bool :=
  (waitResult c).isSome

/-! ## `Server.PatchParticipant` (`server/participant.go`) -/

/-- `service.PatchParticipantConfig`. -/
structure PatchParticipantConfig where
  name : Option String
  avatarID : Option String
  deriving Repr, DecidableEq

/-- `Server.PatchParticipant`: requires a live stream and a stored
participant list containing the participant; overlays the provided name
and avatar on an in-memory copy, dispatches
`Worker.ChangeParticipantInfo` with the patched copy from a detached
task, and returns the patched copy.  The returned state is the server
state after the call; the third component is the message handed to the
detached notification task (`none` when the call failed before
dispatching). -/
def patchParticipant (st : ServerState) (streamUUID participantUUID : String)
    (cfg : PatchParticipantConfig) :
    Except String ParticipantInfo × ServerState × Option ParticipantInfo :=
  if (alLoad st.streams streamUUID).isSome then
    match alLoad st.participantRows streamUUID with
    | none => (.error "could not find participants data", st, none)
    | some participants =>
        match participants.find? (fun q => q.uuid = participantUUID) with
        | none =>
            (.error ("could not find participant by UUID " ++ participantUUID),
              st, none)
        | some p =>
            let p1 := { p with avatarID := cfg.avatarID.getD p.avatarID,
                               name := cfg.name.getD p.name }
            (.ok p1, st, some p1)
  else
    (.error ("could not find running stream by UUID " ++ streamUUID), st, none)

/-! ## Store lemmas -/

theorem alLoad_cons {α : Type} (a : String × α) (l : List (String × α))
    (k : String) :
    alLoad (a :: l) k = if a.1 = k then some a.2 else alLoad l k := by
  by_cases h : a.1 = k <;> simp [alLoad, List.find?_cons, h]

theorem alLoad_overwriteMap_self {α : Type} (l : List (String × α))
    (k : String) (v : α) (h : (alLoad l k).isSome) :
    alLoad (l.map fun kv => if kv.1 = k then (k, v) else kv) k = some v := by
  induction l with
  | nil => simp [alLoad] at h
  | cons a l ih =>
      by_cases ha : a.1 = k
      · simp [ha, alLoad_cons]
      · rw [alLoad_cons] at h
        simp only [ha, if_false] at h
        simpa [ha, alLoad_cons] using ih h

theorem alLoad_overwriteMap_ne {α : Type} (l : List (String × α))
    (k : String) (v : α) (k' : String) (hne : ¬ k' = k) :
    alLoad (l.map fun kv => if kv.1 = k then (k, v) else kv) k' =
      alLoad l k' := by
  induction l with
  | nil => rfl
  | cons a l ih =>
      by_cases ha : a.1 = k
      · have hk : ¬ k = k' := fun h => hne h.symm
        have ha' : ¬ a.1 = k' := by
          rw [ha]; exact hk
        simp [ha, ha', hk, alLoad_cons, ih]
      · simp [ha, alLoad_cons, ih]

theorem alLoad_append {α : Type} (l₁ l₂ : List (String × α)) (k : String) :
    alLoad (l₁ ++ l₂) k =
      match alLoad l₁ k with
      | some v => some v
      | none => alLoad l₂ k := by
  induction l₁ with
  | nil => simp [alLoad]
  | cons a l ih =>
      by_cases ha : a.1 = k <;> simp [ha, alLoad_cons, ih]

theorem alLoad_alStore_self {α : Type} (l : List (String × α)) (k : String)
    (v : α) : alLoad (alStore l k v) k = some v := by
  unfold alStore
  by_cases h : (alLoad l k).isSome
  · simpa [h] using alLoad_overwriteMap_self l k v h
  · have hnone : alLoad l k = none := by
      cases hl : alLoad l k with
      | none => rfl
      | some v' => rw [hl] at h; simp at h
    simp [h, alLoad_append, hnone, alLoad_cons]

theorem alLoad_alStore_ne {α : Type} (l : List (String × α)) (k : String)
    (v : α) (k' : String) (hne : ¬ k' = k) :
    alLoad (alStore l k v) k' = alLoad l k' := by
  unfold alStore
  by_cases h : (alLoad l k).isSome
  · simpa [h] using alLoad_overwriteMap_ne l k v k' hne
  · have hk : ¬ k = k' := fun hh => hne hh.symm
    simp only [h, Bool.false_eq_true, if_false, alLoad_append]
    cases hl : alLoad l k' with
    | none => simp [alLoad_cons, hk, alLoad]
    | some v' => simp

theorem alDelete_cons {α : Type} (a : String × α) (l : List (String × α))
    (k : String) :
    alDelete (a :: l) k =
      if a.1 = k then alDelete l k else a :: alDelete l k := by
  by_cases h : a.1 = k <;> simp [alDelete, List.filter, h]

theorem alLoad_alDelete_self {α : Type} (l : List (String × α))
    (k : String) : alLoad (alDelete l k) k = none := by
  induction l with
  | nil => rfl
  | cons a l ih =>
      by_cases ha : a.1 = k
      · rw [alDelete_cons, if_pos ha]; exact ih
      · rw [alDelete_cons, if_neg ha, alLoad_cons, if_neg ha]; exact ih

theorem alLoad_alDelete_ne {α : Type} (l : List (String × α)) (k : String)
    (k' : String) (hne : ¬ k' = k) :
    alLoad (alDelete l k) k' = alLoad l k' := by
  induction l with
  | nil => rfl
  | cons a l ih =>
      by_cases ha : a.1 = k
      · have ha' : ¬ a.1 = k' := by rw [ha]; exact fun h => hne h.symm
        rw [alDelete_cons, if_pos ha, alLoad_cons, if_neg ha']; exact ih
      · rw [alDelete_cons, if_neg ha, alLoad_cons, alLoad_cons]
        by_cases ha' : a.1 = k' <;> simp [ha', ih]

/-! ## Concrete fixtures -/

/-- A persisted row of a running stream; the join policy and code vary per
fixture. -/
def baseRow : StreamRec :=
  { uuid := "s", name := "demo stream", description := "", ip := "127.0.0.1",
    port := 3000, launchMode := "standalone_app", startedAt := 0,
    finishedAt := none, subject := "", status := "running", joinCode := "",
    joinPolicy := "auto", hostUUID := "h", hostUsername := "alice",
    hostAvatarID := "", hostIP := "" }

/-- A live registry entry with keypair id 1 and no pending waiters. -/
def baseModule : StreamModule := { keyId := 1, pending := [] }

/-- A server with one running stream `s` whose join policy is
`host_resolve`. -/
def stHostResolve : ServerState :=
  { streams := [("s", baseModule)],
    streamRows := [("s", { baseRow with joinPolicy := "host_resolve" })],
    participantRows := [] }

/-- A server with one running stream `s` whose join policy is `by_code`
with an empty stored code. -/
def stByCodeEmpty : ServerState :=
  { streams := [("s", baseModule)],
    streamRows := [("s", { baseRow with joinPolicy := "by_code" })],
    participantRows := [] }

/-- A server with one running stream `s` (auto join policy). -/
def stRunning : ServerState :=
  { streams := [("s", baseModule)],
    streamRows := [("s", baseRow)],
    participantRows := [] }

/-- The joiner of the fixtures. -/
def joiner : ParticipantInfo :=
  { uuid := "", name := "bobby", avatarID := "", ip := "10.0.0.7",
    status := "" }

/-! ## Claim theorems -/

/-- C1: the spec requires the `host_resolve` wait of `JoinParticipant` to
respect context cancellation — remove the waiter and return
`JoinCancelled`.  The source receives from the rendezvous channel with no
`select` on `ctx.Done()`: with the caller's context cancelled and no host
decision ever sent, the call stays blocked forever (it never returns any
failure, `JoinCancelled` or otherwise) and the participant's pending-join
waiter is still present in the stream's waiter map, because the deferred
delete only runs on return. -/
theorem joinParticipant_cancelled_blocks_and_leaks_waiter :
    (joinParticipant stHostResolve "s" "" joiner true "p1" none).1 =
        JoinOutcome.blocked ∧
      alLoad (joinParticipant stHostResolve "s" "" joiner true "p1" none).2.streams
          "s" =
        some { keyId := 1,
               pending := [("p1",
                 { uuid := "p1", name := "bobby", avatarID := "",
                   ip := "10.0.0.7", status := "pending" })] } := by
  constructor <;> rfl

/-- C2 counterexample: with `by_code` and an *empty* stored join code, a
join request supplying the empty code is admitted (the source compares the
strings for equality and has no non-empty check), contradicting the
claim's "when the stored join code is empty, no join request is
admitted". -/
theorem joinParticipant_empty_code_admits :
    (joinParticipant stByCodeEmpty "s" "" joiner false "p1" none).1 =
      JoinOutcome.ok true
        (some { streamUUID := "s", uuid := "p1", host := some false,
                key := 1, rsaAlg := true }) := by
  rfl

/-- C9 counterexample: with no interface configured, the container
launcher defaults to `0.0.0.0` — the unspecified all-interfaces address,
not a loopback address — contradicting the claim that both launcher
variants default to a loopback address. -/
theorem dockerResolveIP_default_not_loopback :
    dockerResolveIP "" = "0.0.0.0" ∧
      isLoopbackIPv4 (dockerResolveIP "") = false := by
  exact ⟨rfl, by decide⟩

/-- C9 amended: with no interface configured, the local-process launcher
defaults the worker's listen interface to the loopback address
`127.0.0.1`, while the container launcher defaults it to the unspecified
all-interfaces address `0.0.0.0`, which is not a loopback address. -/
theorem launcher_default_interfaces :
    standaloneResolveIP "" = "127.0.0.1" ∧
      isLoopbackIPv4 (standaloneResolveIP "") = true ∧
      dockerResolveIP "" = "0.0.0.0" ∧
      isLoopbackIPv4 (dockerResolveIP "") = false := by
  exact ⟨rfl, by decide, rfl, by decide⟩

/-- A server with one running stream `s` whose join policy is `by_code`
with stored code `123456`. -/
def stByCode : ServerState :=
  { streams := [("s", baseModule)],
    streamRows := [("s",
      { baseRow with joinPolicy := "by_code", joinCode := "123456" })],
    participantRows := [] }

/-- C2 amended: with `by_code`, a join request is admitted if and only if
the supplied code equals the stored code byte-for-byte — including the
degenerate case where both are empty; an empty stored code admits exactly
the empty supplied code. -/
theorem joinParticipant_by_code_iff (st : ServerState)
    (streamUUID joinCode : String) (p : ParticipantInfo) (c : Bool)
    (newUUID : String) (hd : Option Bool) (row : StreamRec)
    (m : StreamModule)
    (hrow : alLoad st.streamRows streamUUID = some row)
    (hm : alLoad st.streams streamUUID = some m)
    (hpol : row.joinPolicy = "by_code") :
    (∃ tok, (joinParticipant st streamUUID joinCode p c newUUID hd).1 =
        JoinOutcome.ok true (some tok)) ↔
      row.joinCode = joinCode := by
  unfold joinParticipant
  rw [hrow, hm]
  by_cases hc : row.joinCode = joinCode <;>
    simp [hpol, hc, joinAllowedPath]

/-- Witness for the C2 amended theorem at a concrete running `by_code`
stream with stored code `123456`. -/
theorem joinParticipant_by_code_iff_witness :
    alLoad stByCode.streamRows "s" =
        some { baseRow with joinPolicy := "by_code", joinCode := "123456" } ∧
      alLoad stByCode.streams "s" = some baseModule ∧
      (StreamRec.joinPolicy
        { baseRow with joinPolicy := "by_code", joinCode := "123456" }) = "by_code" ∧
      ((∃ tok, (joinParticipant stByCode "s" "123456" joiner false "p1" none).1 =
          JoinOutcome.ok true (some tok)) ↔
        (StreamRec.joinCode
          { baseRow with joinPolicy := "by_code", joinCode := "123456" }) = "123456") :=
  ⟨rfl, rfl, rfl,
    joinParticipant_by_code_iff stByCode "s" "123456" joiner false "p1" none
      _ _ rfl rfl rfl⟩

/-- C8 counterexample: stopping the worker through the launcher's own
`Stop` kills the process, `Wait` reports the kill signal as a non-nil
error, and the forwarding goroutine therefore *does* deliver an interrupt
— contradicting the claim that no interrupt is delivered when the worker
is terminated through the launcher's stop operation. -/
theorem interrupt_delivered_on_stop :
    interruptDelivered ExitCause.killedByStop = true := by
  rfl

/-- C8 amended: the interrupt channel delivers a value exactly when the
worker's `Wait` reports a non-nil exit error — on a crash and also on a
kill through the launcher's own stop operation — and delivers nothing on
a clean (zero-status) exit. -/
theorem interrupt_delivered_iff_exit_error :
    (∀ c : ExitCause, interruptDelivered c = (waitResult c).isSome) ∧
      interruptDelivered ExitCause.cleanExit = false ∧
      (∀ msg, interruptDelivered (ExitCause.crash msg) = true) ∧
      interruptDelivered ExitCause.killedByStop = true := by
  exact ⟨fun c => rfl, rfl, fun msg => rfl, rfl⟩

/-- After `killStream`, no registry entry remains for the stream. -/
theorem killStreamState_registry_none (st : ServerState) (s : String)
    (now : Nat) : alLoad (killStreamState st s now).streams s = none := by
  unfold killStreamState
  by_cases h : (alLoad st.streams s).isSome
  · cases hr : alLoad st.streamRows s <;>
      simp [h, hr, alLoad_alDelete_self]
  · have hnone : alLoad st.streams s = none := by
      cases hl : alLoad st.streams s with
      | none => rfl
      | some m => rw [hl] at h; simp at h
    cases hr : alLoad st.streamRows s <;> simp [h, hr, hnone]

/-- `killStream` does not change the stream bucket when it holds no row
for the stream, and marks the row finished when it holds one. -/
theorem killStreamState_row (st : ServerState) (s : String) (now : Nat)
    (row : StreamRec) (hr : alLoad st.streamRows s = some row) :
    alLoad (killStreamState st s now).streamRows s =
      some { row with status := "finished", finishedAt := some now } := by
  unfold killStreamState
  by_cases h : (alLoad st.streams s).isSome <;>
    simp [h, hr, alLoad_alStore_self]

/-- C4 counterexample: on a server with one running stream `s`, calling
`FinishStream` twice makes the second call return the
could-not-find-running-stream error, contradicting the claim that the
second call returns without error. -/
theorem finishStream_second_call_errors :
    ((finishStream stRunning "s" 1).1 = Except.ok ()) ∧
      (finishStream (finishStream stRunning "s" 1).2 "s" 2).1 =
        Except.error "could not find running stream by UUID s" := by
  constructor <;> rfl

/-- C4 amended: for a stream with a live registry entry, the first
`FinishStream` succeeds and performs the single running-to-finished
transition of the persisted row; the second call finds no live entry, so
it returns a could-not-find-running-stream error and leaves the state
untouched (no second transition). -/
theorem finishStream_twice (st : ServerState) (s : String) (n1 n2 : Nat)
    (h : (alLoad st.streams s).isSome) :
    (finishStream st s n1).1 = Except.ok () ∧
      (∀ row, alLoad st.streamRows s = some row →
        alLoad (finishStream st s n1).2.streamRows s =
          some { row with status := "finished", finishedAt := some n1 }) ∧
      alLoad (finishStream st s n1).2.streams s = none ∧
      (finishStream (finishStream st s n1).2 s n2).1 =
        Except.error ("could not find running stream by UUID " ++ s) ∧
      (finishStream (finishStream st s n1).2 s n2).2 =
        (finishStream st s n1).2 := by
  have h1 : finishStream st s n1 = (.ok (), killStreamState st s n1) := by
    simp [finishStream, h]
  have hreg := killStreamState_registry_none st s n1
  refine ⟨by rw [h1], ?_, ?_, ?_, ?_⟩
  · intro row hrow
    rw [h1]
    exact killStreamState_row st s n1 row hrow
  · rw [h1]; exact hreg
  · rw [h1]; simp [finishStream, hreg]
  · rw [h1]; simp [finishStream, hreg]

/-- Witness for the C4 amended theorem on a server with one running
stream. -/
theorem finishStream_twice_witness :
    (alLoad stRunning.streams "s").isSome ∧
      ((finishStream stRunning "s" 1).1 = Except.ok () ∧
        (∀ row, alLoad stRunning.streamRows "s" = some row →
          alLoad (finishStream stRunning "s" 1).2.streamRows "s" =
            some { row with status := "finished", finishedAt := some 1 }) ∧
        alLoad (finishStream stRunning "s" 1).2.streams "s" = none ∧
        (finishStream (finishStream stRunning "s" 1).2 "s" 2).1 =
          Except.error ("could not find running stream by UUID " ++ "s") ∧
        (finishStream (finishStream stRunning "s" 1).2 "s" 2).2 =
          (finishStream stRunning "s" 1).2) :=
  ⟨rfl, finishStream_twice stRunning "s" 1 2 rfl⟩

/-- C5: `finish(s)` on a live stream succeeds and destroys the stream's
keypair together with the registry entry; `StreamKey` then errors for
`s`, so the stream auth gate rejects every request for `s` as
unauthorized — whatever token it carries (in particular every token that
was signed with `s`'s per-stream private key, host or participant) and
whether or not the endpoint is host-only. -/
theorem streamAuth_rejects_after_finish (st : ServerState) (s : String)
    (now : Nat) (tok : StreamToken) (hostSpecific : Bool)
    (h : (alLoad st.streams s).isSome) :
    (finishStream st s now).1 = Except.ok () ∧
      streamKey (finishStream st s now).2 s =
        Except.error ("could not find running stream by UUID " ++ s) ∧
      streamAuthMiddleware (streamKey (finishStream st s now).2 s) tok s
          hostSpecific =
        AuthOutcome.unauthorized := by
  have h1 : finishStream st s now = (.ok (), killStreamState st s now) := by
    simp [finishStream, h]
  have hkey : streamKey (killStreamState st s now) s =
      Except.error ("could not find running stream by UUID " ++ s) := by
    simp [streamKey, killStreamState_registry_none st s now]
  refine ⟨by rw [h1], ?_, ?_⟩
  · rw [h1]; exact hkey
  · rw [h1, hkey]; rfl

/-- Witness for the C5 theorem: finishing the running stream `s` and then
presenting the very token that was minted for it (signed with its
keypair, id 1) is rejected, on a host-only endpoint as well as on a
plain stream endpoint. -/
theorem streamAuth_rejects_after_finish_witness :
    (alLoad stRunning.streams "s").isSome ∧
      ((finishStream stRunning "s" 7).1 = Except.ok () ∧
        streamKey (finishStream stRunning "s" 7).2 "s" =
          Except.error ("could not find running stream by UUID " ++ "s") ∧
        streamAuthMiddleware (streamKey (finishStream stRunning "s" 7).2 "s")
            (generateStreamAccessToken "s" "p1" false 1) "s" false =
          AuthOutcome.unauthorized) :=
  ⟨rfl, streamAuth_rejects_after_finish stRunning "s" 7
    (generateStreamAccessToken "s" "p1" false 1) false rfl⟩

/-- C6: the stream auth gate admits a request exactly when the stream key
lookup succeeded, the bearer token names an RSA method and verifies under
that key, the token's `streamUUID` claim equals the path's stream id, and
— on host-only endpoints — the token carries the claim `host=true`; in
particular a token whose `streamUUID` differs from the path stream id is
rejected, and on host-only endpoints a token with `host=false` or with no
`host` claim is rejected. -/
theorem streamAuth_ok_iff (keyRes : Except String Nat) (tok : StreamToken)
    (pathUUID : String) (hostSpecific : Bool) :
    (∃ p, streamAuthMiddleware keyRes tok pathUUID hostSpecific =
        AuthOutcome.ok p) ↔
      (∃ k, keyRes = Except.ok k ∧ tok.rsaAlg = true ∧ tok.key = k ∧
        tok.streamUUID = pathUUID ∧
        (hostSpecific = true → tok.host = some true)) := by
  cases keyRes with
  | error e => simp [streamAuthMiddleware]
  | ok k =>
      by_cases hv : tok.rsaAlg = true ∧ tok.key = k
      · by_cases hmatch : pathUUID = tok.streamUUID
        · by_cases hhost : hostSpecific = true ∧ ¬ tok.host.getD false = true
          · obtain ⟨hs, hh⟩ := hhost
            have hgf : tok.host.getD false = false := by
              simpa using hh
            simp [streamAuthMiddleware, parseStreamToken, hv.1, hv.2,
              hmatch, hs, hgf]
            cases hht : tok.host with
            | none => simp
            | some b =>
                cases b with
                | true => rw [hht] at hgf; simp at hgf
                | false => simp
          · have hcond : ¬ (hostSpecific = true ∧ tok.host.getD false = false) := by
              simpa using hhost
            simp [streamAuthMiddleware, parseStreamToken, hv.1, hv.2,
              hmatch, hcond]
            intro hs
            have hgt : tok.host.getD false = true := by
              by_contra hgf
              exact hcond ⟨hs, by simpa using hgf⟩
            cases hht : tok.host with
            | none => rw [hht] at hgt; simp at hgt
            | some b =>
                rw [hht] at hgt
                simp at hgt
                rw [hgt]
        · have hm' : ¬ tok.streamUUID = pathUUID := fun h => hmatch h.symm
          simp [streamAuthMiddleware, parseStreamToken, hv.1, hv.2,
            hmatch, hm']
      · simp only [streamAuthMiddleware, parseStreamToken, if_neg hv]
        simp
        intro k1 hk1
        exact absurd ⟨k1, hk1⟩ hv

/-- C3 counterexample: the interior point of `NewStream` between the
running-row persist (`streamStorage.Store`) and the registry insert
(`s.streams.Store`) — reached by executing only the first atomic access
of `NewStream`'s script — has a persisted row with `status=running` and
no `finished-at` but no registry entry, which is none of the three
admissible states. -/
theorem newStream_mid_flight_violates_threeState :
    ¬ threeState
        (runActs initState (List.take 1 (newStreamScript "s" baseRow baseModule)))
        "s" := by
  intro h
  have h1 : threeState
      (runActs initState (List.take 1 (newStreamScript "s" baseRow baseModule)))
      "s" =
      ((("running" : String) = "finished") ∧ ((none : Option Nat) ≠ none)) := by
    rfl
  rw [h1] at h
  exact h.2 rfl

/-- Fully running `NewStream`'s access script establishes state (a) for
its stream id. -/
theorem threeState_after_newStream (st : ServerState) (s : String)
    (row : StreamRec) (m : StreamModule)
    (hrow : row.status = "running" ∧ row.finishedAt = none) :
    ∀ s', threeState st s' →
      threeState (runActs st (newStreamScript s row m)) s' := by
  intro s' hs'
  by_cases he : s' = s
  · subst he
    unfold threeState
    simp [newStreamScript, runActs, applyAct, alLoad_alStore_self]
    exact hrow
  · unfold threeState at hs' ⊢
    simp only [newStreamScript, runActs, applyAct]
    rw [alLoad_alStore_ne _ _ _ _ he, alLoad_alStore_ne _ _ _ _ he]
    exact hs'

/-- Fully running `killStream`'s access script establishes state (b) or
(c) for its stream id. -/
theorem threeState_after_kill (st : ServerState) (s : String) (now : Nat) :
    ∀ s', threeState st s' →
      threeState (runActs st (killScript s now)) s' := by
  intro s' hs'
  by_cases he : s' = s
  · subst he
    unfold threeState
    simp only [killScript, runActs, applyAct]
    cases hr : alLoad st.streamRows s' with
    | none => simp [hr, alLoad_alDelete_self]
    | some row => simp [hr, alLoad_alDelete_self, alLoad_alStore_self]
  · unfold threeState at hs' ⊢
    simp only [killScript, runActs, applyAct]
    cases hr : alLoad st.streamRows s with
    | none =>
        simp only [hr]
        rw [alLoad_alDelete_ne _ _ _ he]
        exact hs'
    | some row =>
        simp only [hr]
        rw [alLoad_alDelete_ne _ _ _ he, alLoad_alStore_ne _ _ _ _ he]
        exact hs'

/-- Any sequence of completed operations preserves the tri-state
invariant for every stream id. -/
theorem runOps_preserves_threeState (ops : List LifeOp) :
    ∀ st : ServerState, (∀ op ∈ ops, ValidOp op) →
      (∀ s, threeState st s) → ∀ s, threeState (runOps st ops) s := by
  induction ops with
  | nil => intro st _ hst s; exact hst s
  | cons op rest ih =>
      intro st hops hst s
      have hop : ValidOp op := hops op (List.mem_cons_self op rest)
      have hrest : ∀ o ∈ rest, ValidOp o :=
        fun o ho => hops o (List.mem_cons_of_mem op ho)
      have hnext : ∀ s', threeState (runActs st (opScript op)) s' := by
        intro s'
        cases op with
        | create t row m =>
            exact threeState_after_newStream st t row m hop s' (hst s')
        | kill t now =>
            exact threeState_after_kill st t now s' (hst s')
      exact ih (runActs st (opScript op)) hrest hnext s

/-- C3 amended: at every operation boundary — i.e. in every state reached
from the empty server by a sequence of *completed* `NewStream` and
`killStream` operations (explicit finish and the interrupt watcher both
run `killStream`) — each stream-id is in exactly one of the three
admissible states of P1; the counterexample above shows the tri-state can
be violated at an interior point of `NewStream`. -/
theorem threeState_at_operation_boundaries (ops : List LifeOp)
    (hops : ∀ op ∈ ops, ValidOp op) (s : String) :
    threeState (runOps initState ops) s := by
  refine runOps_preserves_threeState ops initState hops ?_ s
  intro s'
  unfold threeState
  simp [initState, alLoad]

/-- Witness for the C3 amended theorem: create stream `s`, then kill it. -/
theorem threeState_at_operation_boundaries_witness :
    (∀ op ∈ [LifeOp.create "s" baseRow baseModule, LifeOp.kill "s" 5],
        ValidOp op) ∧
      threeState
        (runOps initState [LifeOp.create "s" baseRow baseModule,
          LifeOp.kill "s" 5]) "s" := by
  have hops : ∀ op ∈ [LifeOp.create "s" baseRow baseModule,
      LifeOp.kill "s" 5], ValidOp op := by
    intro op hop
    cases hop with
    | head => exact ⟨rfl, rfl⟩
    | tail _ hop =>
        cases hop with
        | head => trivial
        | tail _ hop => cases hop
  exact ⟨hops,
    threeState_at_operation_boundaries
      [LifeOp.create "s" baseRow baseModule, LifeOp.kill "s" 5] hops "s"⟩

/-! ## Pagination lemmas (claim C7) -/

/-- The two slicing `if`s of `StreamList` compute `take pageSize` of
`drop startIndex`. -/
theorem slicePage_eq {α : Type} (l : List α) (start ps : Nat) :
    (if start + ps < l.length then
        (if start < l.length then l.drop start else []).take (start + ps - start)
      else (if start < l.length then l.drop start else [])) =
    (l.drop start).take ps := by
  have hsub : start + ps - start = ps := by omega
  rw [hsub]
  by_cases h1 : start < l.length
  · by_cases h2 : start + ps < l.length
    · simp [h1, h2]
    · have hlen : (l.drop start).length ≤ ps := by
        rw [List.length_drop]; omega
      simp [h1, h2, List.take_of_length_le hlen]
  · have h2 : ¬ start + ps < l.length := by omega
    simp [h1, h2, List.drop_eq_nil_of_le (by omega : l.length ≤ start)]

/-- The page returned by `StreamList` is the `page`-th `pageSize`-chunk of
the sorted filtered list. -/
theorem streamList_streams_eq (rows : List StreamRec) (f : StreamFilter) :
    (streamList rows f).streams =
      ((filterStreamsSort (rows.filter (fun st => isStreamFitsFilter st f))
          f.sortBy f.sortOrder).drop ((f.page - 1) * f.pageSize)).take
        f.pageSize :=
  slicePage_eq _ _ _

/-- Concatenating the first `k` `ps`-chunks of a list yields its first
`k*ps` elements. -/
theorem join_take_chunks {α : Type} (l : List α) (ps : Nat) (k : Nat) :
    ((List.range k).map (fun i => (l.drop (i * ps)).take ps)).flatten =
      l.take (k * ps) := by
  induction k with
  | zero => simp
  | succ k ih =>
      rw [List.range_succ, List.map_append, List.flatten_append, ih,
        Nat.succ_mul, List.take_add]
      simp

/-- `filterStreams` (the sort step of `StreamList`) permutes its input. -/
theorem filterStreamsSort_perm (l : List StreamRec)
    (sortBy sortOrder : String) :
    (filterStreamsSort l sortBy sortOrder).Perm l := by
  unfold filterStreamsSort
  cases h : filterStreamsLess sortBy sortOrder with
  | none => exact List.Perm.refl l
  | some less => exact List.mergeSort_perm l _

/-- The model of `sort.Slice` with a comparator that is asymmetric and
negatively transitive leaves the list pairwise ordered: no later element
is strictly below an earlier one. -/
theorem mergeSort_pairwise_less (less : StreamRec → StreamRec → Bool)
    (htotal : ∀ a b, (!less b a || !less a b) = true)
    (htrans : ∀ a b c, less b a = false → less c b = false →
      less c a = false)
    (l : List StreamRec) :
    (l.mergeSort (fun a b => ! less b a)).Pairwise
      (fun a b => less b a = false) := by
  have h := @List.sorted_mergeSort StreamRec (fun a b => ! less b a)
    (fun a b c h1 h2 => by
      simp only [Bool.not_eq_true'] at h1 h2 ⊢
      exact htrans a b c h1 h2)
    (fun a b => htotal a b) l
  exact h.imp (fun hab => by simpa using hab)

/-- C7: for every filter with a recognised sort field, and every `k`
large enough that `k` pages cover the filtered rows:
concatenating pages `1..k` in order yields exactly the sorted filtered
list, which is a permutation of the filtered rows (no duplication, no
omission) and is pairwise ordered by the selected comparator; on every
page, `count` is the number of items in the returned page, `total` is the
filtered size, and `hasNext` holds iff `total > page*pageSize`. -/
theorem streamList_pagination (rows : List StreamRec) (f : StreamFilter)
    (k : Nat)
    (hsort : f.sortBy = "uuid" ∨ f.sortBy = "name" ∨ f.sortBy = "mode" ∨
      f.sortBy = "started" ∨ f.sortBy = "status")
    (hk : (rows.filter (fun st => isStreamFitsFilter st f)).length ≤
      k * f.pageSize) :
    (((List.range k).map (fun i =>
          (streamList rows { f with page := i + 1 }).streams)).flatten =
        filterStreamsSort (rows.filter (fun st => isStreamFitsFilter st f))
          f.sortBy f.sortOrder) ∧
      (filterStreamsSort (rows.filter (fun st => isStreamFitsFilter st f))
          f.sortBy f.sortOrder).Perm
        (rows.filter (fun st => isStreamFitsFilter st f)) ∧
      (∀ less, filterStreamsLess f.sortBy f.sortOrder = some less →
        (filterStreamsSort (rows.filter (fun st => isStreamFitsFilter st f))
            f.sortBy f.sortOrder).Pairwise
          (fun a b => less b a = false)) ∧
      (∀ p, (streamList rows { f with page := p }).count =
        (streamList rows { f with page := p }).streams.length) ∧
      (∀ p, (streamList rows { f with page := p }).total =
        (rows.filter (fun st => isStreamFitsFilter st f)).length) ∧
      (∀ p, (streamList rows { f with page := p }).hasNext =
        decide ((rows.filter (fun st => isStreamFitsFilter st f)).length >
          p * f.pageSize)) := by
  have hperm := filterStreamsSort_perm
    (rows.filter (fun st => isStreamFitsFilter st f)) f.sortBy f.sortOrder
  have hlen := hperm.length_eq
  refine ⟨?_, hperm, ?_, ?_, ?_, ?_⟩
  · have hpage : ∀ i : Nat,
        (streamList rows { f with page := i + 1 }).streams =
          ((filterStreamsSort (rows.filter (fun st => isStreamFitsFilter st f))
              f.sortBy f.sortOrder).drop (i * f.pageSize)).take f.pageSize := by
      intro i
      rw [streamList_streams_eq]
      rfl
    rw [List.map_congr_left (fun i _ => hpage i), join_take_chunks]
    exact List.take_of_length_le (by omega)
  · intro less hless
    rcases hsort with hc | hc | hc | hc | hc <;> rw [hc] at hless ⊢ <;>
      injection hless with hl <;> rw [← hl] <;>
      refine mergeSort_pairwise_less _ ?_ ?_ _ <;>
      [skip; skip; skip; skip; skip; skip; skip; skip; skip; skip] <;>
      first
        | (intro a b
           by_cases hP : f.sortOrder = "asc" <;> simp [hP, not_lt] <;>
             exact le_total _ _)
        | (intro a b c h1 h2
           by_cases hP : f.sortOrder = "asc" <;>
             simp [hP, not_lt] at h1 h2 ⊢ <;>
             first
               | exact le_trans h1 h2
               | exact le_trans h2 h1)
  · intro p; rfl
  · intro p; exact hlen
  · intro p
    show decide (((filterStreamsSort
        (rows.filter (fun st => isStreamFitsFilter st f)) f.sortBy
        f.sortOrder).length) > p * f.pageSize) = _
    rw [hlen]

/-- First row of the C7 witness. -/
def rowA : StreamRec := { baseRow with uuid := "a", name := "alpha" }

/-- Second row of the C7 witness. -/
def rowB : StreamRec := { baseRow with uuid := "b", name := "beta" }

/-- Filter of the C7 witness: no filtering, sort by name ascending, one
item per page. -/
def fW : StreamFilter :=
  { searchPhrase := "", launchModes := [], statuses := [],
    sortBy := "name", sortOrder := "asc", pageSize := 1, page := 1 }

/-- Witness for the C7 theorem: two rows, pages of size one, two pages. -/
theorem streamList_pagination_witness :
    ((fW.sortBy = "uuid" ∨ fW.sortBy = "name" ∨ fW.sortBy = "mode" ∨
        fW.sortBy = "started" ∨ fW.sortBy = "status") ∧
      ([rowA, rowB].filter (fun st => isStreamFitsFilter st fW)).length ≤
        2 * fW.pageSize) ∧
      ((((List.range 2).map (fun i =>
            (streamList [rowA, rowB] { fW with page := i + 1 }).streams)).flatten =
          filterStreamsSort
            ([rowA, rowB].filter (fun st => isStreamFitsFilter st fW))
            fW.sortBy fW.sortOrder) ∧
        (filterStreamsSort
            ([rowA, rowB].filter (fun st => isStreamFitsFilter st fW))
            fW.sortBy fW.sortOrder).Perm
          ([rowA, rowB].filter (fun st => isStreamFitsFilter st fW)) ∧
        (∀ less, filterStreamsLess fW.sortBy fW.sortOrder = some less →
          (filterStreamsSort
              ([rowA, rowB].filter (fun st => isStreamFitsFilter st fW))
              fW.sortBy fW.sortOrder).Pairwise
            (fun a b => less b a = false)) ∧
        (∀ p, (streamList [rowA, rowB] { fW with page := p }).count =
          (streamList [rowA, rowB] { fW with page := p }).streams.length) ∧
        (∀ p, (streamList [rowA, rowB] { fW with page := p }).total =
          ([rowA, rowB].filter (fun st => isStreamFitsFilter st fW)).length) ∧
        (∀ p, (streamList [rowA, rowB] { fW with page := p }).hasNext =
          decide
            (([rowA, rowB].filter (fun st => isStreamFitsFilter st fW)).length >
              p * fW.pageSize))) :=
  ⟨⟨Or.inr (Or.inl rfl), by decide⟩,
    streamList_pagination [rowA, rowB] fW 2 (Or.inr (Or.inl rfl)) (by decide)⟩

/-- A participant stored for stream `s`, used by the C10 witness. -/
def storedParticipant : ParticipantInfo :=
  { uuid := "p1", name := "bobby", avatarID := "", ip := "10.0.0.7",
    status := "active" }

/-- A server with one running stream `s` and one persisted participant. -/
def stWithParticipant : ServerState :=
  { streams := [("s", baseModule)],
    streamRows := [("s", baseRow)],
    participantRows := [("s", [storedParticipant])] }

/-- C10: `PatchParticipant` on a running stream leaves the whole server
state — in particular the persisted participant list for the stream —
unchanged: the name/avatar overlay is applied to an in-memory copy only,
which is returned to the caller and handed to the detached
`Worker.ChangeParticipantInfo` notification, and never stored back; a
subsequent load therefore observes the pre-patch record. -/
theorem patchParticipant_does_not_persist (st : ServerState)
    (streamUUID participantUUID : String) (cfg : PatchParticipantConfig)
    (ps : List ParticipantInfo) (p : ParticipantInfo)
    (hreg : (alLoad st.streams streamUUID).isSome)
    (hps : alLoad st.participantRows streamUUID = some ps)
    (hfind : ps.find? (fun q => q.uuid = participantUUID) = some p) :
    (patchParticipant st streamUUID participantUUID cfg).2.1 = st ∧
      alLoad (patchParticipant st streamUUID participantUUID cfg).2.1.participantRows
          streamUUID =
        some ps ∧
      (patchParticipant st streamUUID participantUUID cfg).1 =
        Except.ok { p with avatarID := cfg.avatarID.getD p.avatarID,
                           name := cfg.name.getD p.name } ∧
      (patchParticipant st streamUUID participantUUID cfg).2.2 =
        some { p with avatarID := cfg.avatarID.getD p.avatarID,
                      name := cfg.name.getD p.name } := by
  refine ⟨?_, ?_, ?_, ?_⟩ <;> simp [patchParticipant, hreg, hps, hfind]

/-- Witness for the C10 theorem at a concrete state with one running
stream and one stored participant, patching the participant's name. -/
theorem patchParticipant_does_not_persist_witness :
    (alLoad stWithParticipant.streams "s").isSome ∧
      alLoad stWithParticipant.participantRows "s" = some [storedParticipant] ∧
      [storedParticipant].find? (fun q => q.uuid = "p1") =
        some storedParticipant ∧
      ((patchParticipant stWithParticipant "s" "p1"
          { name := some "robert", avatarID := none }).2.1 = stWithParticipant ∧
        alLoad (patchParticipant stWithParticipant "s" "p1"
            { name := some "robert", avatarID := none }).2.1.participantRows "s" =
          some [storedParticipant] ∧
        (patchParticipant stWithParticipant "s" "p1"
            { name := some "robert", avatarID := none }).1 =
          Except.ok { storedParticipant with
            avatarID := (Option.none).getD storedParticipant.avatarID,
            name := (some "robert").getD storedParticipant.name } ∧
        (patchParticipant stWithParticipant "s" "p1"
            { name := some "robert", avatarID := none }).2.2 =
          some { storedParticipant with
            avatarID := (Option.none).getD storedParticipant.avatarID,
            name := (some "robert").getD storedParticipant.name }) :=
  ⟨rfl, rfl, rfl,
    patchParticipant_does_not_persist stWithParticipant "s" "p1"
      { name := some "robert", avatarID := none } [storedParticipant]
      storedParticipant rfl rfl rfl⟩

end CcCore
